/-
  Verification of the litter-placement detector backend
  (`backend/app.py`): the diff-based frame pipeline, the
  persistence/cooldown trigger state machine, the FPS-limited
  broadcast, and the WebSocket client manager.

  Times are modelled as exact rationals (ℚ); pixel intensities as ℕ.
  Each pipeline iteration receives its detection list and its clock
  reading `now` as inputs (the camera and OpenCV plumbing that produce
  them are external), and the loop is a fold of a step function over a
  trace of such inputs, mirroring lines 100-169 of app.py.
-/
import Mathlib

namespace LitterBot

/-! ### Configuration constants (app.py lines 17-23) -/

/-- `FPS_LIMIT = 15` (line 18). -/
def FPS_LIMIT : ℕ := 15

/-- `MIN_AREA_RATIO = 0.004` (line 20), kept exact as a rational.
(The Python float `0.004` differs from `4/1000` by less than `1e-18`;
for every frame-area value appearing below both round down to the
same integer, so the exact rational is a faithful model of
`int(MIN_AREA_RATIO * (w*h))`.) -/
def MIN_AREA_FRAC : ℚ := 4/1000

/-- `PERSISTENCE_FRAMES = 3` (line 21). -/
def PERSISTENCE_FRAMES : ℕ := 3

/-- `COOLDOWN_SECONDS = 6` (line 22). -/
def COOLDOWN_SECONDS : ℚ := 6

/-- `BG_LEARNING_RATE = 0.01` (line 23), exact as a rational. -/
def BG_LEARNING_RATE : ℚ := 1/100

/-- `1.0 / max(1, FPS_LIMIT)` (line 163). -/
def FPS_INTERVAL : ℚ := 1 / (max 1 FPS_LIMIT : ℕ)

/-! ### Background model and thresholding, per pixel (lines 107-114)

`cv2.accumulateWeighted(gray, bg_model, α)` performs, per pixel,
`bg := (1-α)*bg + α*gray`.  `cv2.convertScaleAbs` is
`saturate_cast<uchar>(round(|x|))`.  `cv2.absdiff` on 8-bit data is
`|a - b|`.  `cv2.threshold(diff, 30, 255, THRESH_BINARY)` sets a pixel
to 255 (foreground) iff `diff > 30` (OpenCV's THRESH_BINARY uses a
strict comparison). -/

/-- Threshold constant of `cv2.threshold(diff, 30, 255, ...)` (line 114). -/
def DIFF_THRESHOLD : ℕ := 30

/-- Per-pixel `cv2.accumulateWeighted` update (line 109). -/
def accumulateWeighted (bg : ℚ) (gray : ℕ) : ℚ :=
  (1 - BG_LEARNING_RATE) * bg + BG_LEARNING_RATE * gray

/-- Per-pixel `cv2.convertScaleAbs` (line 110): round the absolute value
and saturate to the 8-bit range. -/
def convertScaleAbs (v : ℚ) : ℕ :=
  min 255 (Int.toNat (round |v|))

/-- Per-pixel `cv2.absdiff` on 8-bit values (line 113). -/
def absdiff (a b : ℕ) : ℕ := max a b - min a b

/-- Per-pixel `cv2.threshold(·, 30, 255, THRESH_BINARY)` (line 114):
foreground iff the value is strictly greater than the threshold. -/
def thresholdBinary (diff : ℕ) : Bool := decide (DIFF_THRESHOLD < diff)

/-- One pixel of the pre-morphology binary mask for a frame after the
first: background update (line 109), rounding back to 8-bit (line 110),
absolute difference against the new grayscale value (line 113), and
binary threshold (line 114). -/
def fgPixel (gray : ℕ) (bg : ℚ) : Bool :=
  thresholdBinary (absdiff gray (convertScaleAbs (accumulateWeighted bg gray)))

/-! ### Blob detection (lines 92-93 and 120-127) -/

/-- Output of `cv2.boundingRect` for one contour (line 124):
`x, y, wc, hc`, all non-negative. -/
structure BRect where
  x : ℕ
  y : ℕ
  w : ℕ
  h : ℕ
  deriving DecidableEq, Repr

/-- One entry of the `detections` list (line 127):
`{"bbox": [x, y, x+wc, y+hc], "area": wc*hc}`. -/
structure Detection where
  x1 : ℕ
  y1 : ℕ
  x2 : ℕ
  y2 : ℕ
  area : ℕ
  deriving DecidableEq, Repr

/-- `min_area_px = max(10, int(MIN_AREA_RATIO * (w*h)))` (line 93);
Python's `int()` truncates toward zero, i.e. floors a non-negative
float. -/
def min_area_px (frameArea : ℕ) : ℕ :=
  max 10 (Int.toNat ⌊MIN_AREA_FRAC * (frameArea : ℚ)⌋)

/-- The contour filter loop (lines 122-127): keep a bounding rectangle
iff its bounding-box area `wc*hc` is at least `minA`. -/
def detect (boxes : List BRect) (minA : ℕ) : List Detection :=
  boxes.filterMap fun b =>
    if minA ≤ b.w * b.h then
      some ⟨b.x, b.y, b.x + b.w, b.y + b.h, b.w * b.h⟩
    else
      none

/-- `max(detections, key=lambda x: x["area"])` for a non-empty list
(line 148): Python's `max` keeps the earlier element unless a strictly
larger one appears. -/
def largestDet : List Detection → Option Detection
  | [] => none
  | d :: ds => some (ds.foldl (fun best x => if best.area < x.area then x else best) d)

/-! ### Persistence / trigger / rate-limit state machine (lines 99-166) -/

/-- The mutable loop state: `present_count` (line 71), `last_trigger_at`
(line 70) and `last_send` (line 99). -/
structure LoopState where
  present_count : ℕ
  last_trigger_at : ℚ
  last_send : ℚ
  deriving DecidableEq, Repr

/-- Initial values: `last_trigger_at = 0.0`, `present_count = 0`
(lines 70-71), `last_send = 0.0` (line 99). -/
def initState : LoopState := ⟨0, 0, 0⟩

/-- Lines 130-133: bump the persistence counter when any detections are
present, else reset it to zero. -/
def countUpdate (dets : List Detection) (c : ℕ) : ℕ :=
  if dets.isEmpty then 0 else c + 1

/-- Observable events of one loop iteration: whether the trigger fired
(line 144), which detection was chosen for the snapshot crop
(line 148), whether an annotated frame was broadcast (line 163), and
the iteration's clock reading `now` (line 143). -/
structure IterOut where
  fired : Bool
  snap : Option Detection
  sent : Bool
  count_after : ℕ
  now : ℚ
  deriving DecidableEq, Repr

/-- The trigger test of line 144:
`present_count >= PERSISTENCE_FRAMES and (now - last_trigger_at) > COOLDOWN_SECONDS`,
evaluated on the already-updated counter. -/
def fireCond (st : LoopState) (dets : List Detection) (now : ℚ) : Bool :=
  decide (PERSISTENCE_FRAMES ≤ countUpdate dets st.present_count) &&
    decide (COOLDOWN_SECONDS < now - st.last_trigger_at)

/-- The rate-limit test of line 163:
`(now - last_send) >= (1.0 / max(1, FPS_LIMIT))`. -/
def sendCond (st : LoopState) (now : ℚ) : Bool :=
  decide (FPS_INTERVAL ≤ now - st.last_send)

/-- One iteration of the `while True` body, lines 129-166, given this
iteration's detection list and clock reading `now`:
counter update (130-133), trigger test and its state effects (144-146),
snapshot-crop selection (148), and the FPS-limited send (163-166). -/
def stepIter (st : LoopState) (dets : List Detection) (now : ℚ) : LoopState × IterOut :=
  let fire := fireCond st dets now
  let c' := if fire then 0 else countUpdate dets st.present_count
  let last' := if fire then now else st.last_trigger_at
  let snap := if fire then largestDet dets else none
  let send := sendCond st now
  let lastSend' := if send then now else st.last_send
  (⟨c', last', lastSend'⟩, ⟨fire, snap, send, c', now⟩)

/-- The loop over a finite trace of per-iteration inputs
(detections, now). -/
def runLoop (st : LoopState) : List (List Detection × ℚ) → LoopState × List IterOut
  | [] => (st, [])
  | (d, n) :: rest =>
    let p := stepIter st d n
    let q := runLoop p.1 rest
    (q.1, p.2 :: q.2)

/-- The clock readings of the iterations that broadcast an annotated
frame (the iterations taking the branch of lines 163-166). -/
def sentTimes (st : LoopState) (trace : List (List Detection × ℚ)) : List ℚ :=
  ((runLoop st trace).2.filter fun o => o.sent).map fun o => o.now

/-! ### WebSocket manager (lines 29-64)

A client is modelled by an identity, its `client_state.value`
(1 = CONNECTED, line 47), and whether its `send_bytes` / `send_text`
call would succeed or raise. -/

/-- One entry of `WSMgr.clients`. -/
structure WSClient where
  id : ℕ
  stateVal : ℕ
  sendBytesOk : Bool
  sendTextOk : Bool
  deriving DecidableEq, Repr

/-- `WSMgr.disconnect` (lines 37-41): `list.remove` drops the first
occurrence; the `except ValueError: pass` makes removal of an absent
client a no-op.  `List.erase` has exactly these semantics. -/
def disconnect (clients : List WSClient) (ws : WSClient) : List WSClient :=
  clients.erase ws

/-- The `dead` list built by `broadcast_bytes` (lines 44-50): clients
that were in CONNECTED state (so a send was attempted) and whose send
raised. -/
def deadBytes (clients : List WSClient) : List WSClient :=
  clients.filter fun ws => ws.stateVal == 1 && !ws.sendBytesOk

/-- The clients `broadcast_bytes` successfully delivers to (line 48):
in CONNECTED state and whose send succeeds. -/
def deliveredBytes (clients : List WSClient) : List WSClient :=
  clients.filter fun ws => ws.stateVal == 1 && ws.sendBytesOk

/-- `WSMgr.broadcast_bytes` (lines 43-52): iterate over a snapshot of
the client list, attempt a send to each CONNECTED client, collect the
failures, then disconnect each failure.  Returns the updated client
list and the list of clients delivered to; every exception is caught,
so the caller sees no error. -/
def broadcast_bytes (clients : List WSClient) : List WSClient × List WSClient :=
  ((deadBytes clients).foldl disconnect clients, deliveredBytes clients)

/-- The `dead` list built by `broadcast_json` (lines 56-62). -/
def deadJson (clients : List WSClient) : List WSClient :=
  clients.filter fun ws => ws.stateVal == 1 && !ws.sendTextOk

/-- The clients `broadcast_json` successfully delivers to (line 60). -/
def deliveredJson (clients : List WSClient) : List WSClient :=
  clients.filter fun ws => ws.stateVal == 1 && ws.sendTextOk

/-- `WSMgr.broadcast_json` (lines 54-64): same fan-out as
`broadcast_bytes`, with `send_text`. -/
def broadcast_json (clients : List WSClient) : List WSClient × List WSClient :=
  ((deadJson clients).foldl disconnect clients, deliveredJson clients)

/-! ### Frames, annotation and the snapshot crop (lines 135-156)

A frame is a pixel grid (BGR triples, addressed by column `i` and
row `j`) together with the list of text overlays that `cv2.putText`
has stamped onto it.  `cv2.rectangle(vis, (x1,y1), (x2,y2), color, 2)`
recolours the pixels near the box border; its exact 2-pixel-thick
geometry is modelled by `onBorder`. -/

/-- A video frame: pixel grid plus accumulated text overlays. -/
structure Frame where
  pix : ℕ → ℕ → ℕ × ℕ × ℕ
  texts : List (String × ℕ × ℤ)

/-- `frame.copy()` (line 136): a fresh frame with the same contents. -/
def frameCopy (f : Frame) : Frame := ⟨f.pix, f.texts⟩

/-- The BGR colour `(10, 200, 255)` used for boxes (line 139). -/
def boxColor : ℕ × ℕ × ℕ := (10, 200, 255)

/-- Pixel `(i, j)` lies on the (2-thick) border of the box
`(x1,y1)-(x2,y2)`. -/
def onBorder (d : Detection) (i j : ℕ) : Bool :=
  (d.x1 ≤ i && i ≤ d.x2 && d.y1 ≤ j && j ≤ d.y2) &&
    (i ≤ d.x1 + 1 || d.x2 ≤ i + 1 || j ≤ d.y1 + 1 || d.y2 ≤ j + 1)

/-- `cv2.rectangle(f, (x1,y1), (x2,y2), (10,200,255), 2)` (line 139):
recolour the border pixels, leave everything else. -/
def cv2rectangle (f : Frame) (d : Detection) : Frame :=
  ⟨fun i j => if onBorder d i j then boxColor else f.pix i j, f.texts⟩

/-- The label text of line 140: `f"NEW {d['area']}"`. -/
def labelOf (d : Detection) : String × ℕ × ℤ :=
  ("NEW " ++ toString d.area, d.x1, (d.y1 : ℤ) - 6)

/-- `cv2.putText(f, f"NEW {area}", (x1, y1-6), ...)` (line 140):
stamp the label onto the frame's overlay list. -/
def cv2putText (f : Frame) (d : Detection) : Frame :=
  ⟨f.pix, labelOf d :: f.texts⟩

/-- The per-detection drawing of lines 138-140: rectangle, then label. -/
def drawDet (f : Frame) (d : Detection) : Frame :=
  cv2putText (cv2rectangle f d) d

/-- Lines 136-140: copy the frame, then draw every detection's box and
label on the copy.  The input frame is untouched. -/
def annotate (frame : Frame) (dets : List Detection) : Frame :=
  dets.foldl drawDet (frameCopy frame)

/-- The snapshot crop of line 151,
`frame[max(0,y1-10):y2+10, max(0,x1-10):x2+10]`, taken from the
*unannotated* frame: pixel `(i, j)` of the crop is pixel
`(max 0 (x1-10) + i, max 0 (y1-10) + j)` of the original frame. -/
def snapshotCrop (frame : Frame) (d : Detection) : Frame :=
  ⟨fun i j => frame.pix (d.x1 - 10 + i) (d.y1 - 10 + j), frame.texts⟩

/-! ### Basic lemmas about the step function -/

@[simp]
lemma stepIter_fired (st : LoopState) (dets : List Detection) (now : ℚ) :
    (stepIter st dets now).2.fired = fireCond st dets now := rfl

@[simp]
lemma stepIter_sent (st : LoopState) (dets : List Detection) (now : ℚ) :
    (stepIter st dets now).2.sent = sendCond st now := rfl

@[simp]
lemma stepIter_now (st : LoopState) (dets : List Detection) (now : ℚ) :
    (stepIter st dets now).2.now = now := rfl

@[simp]
lemma stepIter_snap (st : LoopState) (dets : List Detection) (now : ℚ) :
    (stepIter st dets now).2.snap
      = if fireCond st dets now then largestDet dets else none := rfl

@[simp]
lemma stepIter_count_after (st : LoopState) (dets : List Detection) (now : ℚ) :
    (stepIter st dets now).2.count_after
      = if fireCond st dets now then 0 else countUpdate dets st.present_count := rfl

@[simp]
lemma stepIter_present_count (st : LoopState) (dets : List Detection) (now : ℚ) :
    (stepIter st dets now).1.present_count
      = if fireCond st dets now then 0 else countUpdate dets st.present_count := rfl

@[simp]
lemma stepIter_last_trigger (st : LoopState) (dets : List Detection) (now : ℚ) :
    (stepIter st dets now).1.last_trigger_at
      = if fireCond st dets now then now else st.last_trigger_at := rfl

@[simp]
lemma stepIter_last_send (st : LoopState) (dets : List Detection) (now : ℚ) :
    (stepIter st dets now).1.last_send
      = if sendCond st now then now else st.last_send := rfl

@[simp]
lemma runLoop_nil (st : LoopState) : runLoop st [] = (st, []) := rfl

lemma runLoop_cons (st : LoopState) (d : List Detection) (n : ℚ)
    (rest : List (List Detection × ℚ)) :
    runLoop st ((d, n) :: rest)
      = ((runLoop (stepIter st d n).1 rest).1,
         (stepIter st d n).2 :: (runLoop (stepIter st d n).1 rest).2) := rfl

/-- With an empty detection list the updated counter is 0, so the
trigger test of line 144 fails (`PERSISTENCE_FRAMES = 3 ≥ 1`). -/
lemma fireCond_nil (st : LoopState) (now : ℚ) : fireCond st [] now = false := by
  simp [fireCond, countUpdate, PERSISTENCE_FRAMES]

/-! ### C3: empty region lists -/

/-- C3: an iteration whose region list is empty sets `present_count`
to 0 in that same iteration, and over any trace all of whose
iterations yield empty region lists the counter is 0 after every
iteration and no trigger ever fires. -/
theorem empty_trace_resets_and_never_fires :
    (∀ (st : LoopState) (now : ℚ), (stepIter st [] now).1.present_count = 0)
    ∧ ∀ (trace : List (List Detection × ℚ)) (st : LoopState),
        (∀ p ∈ trace, p.1 = []) →
        ∀ o ∈ (runLoop st trace).2, o.count_after = 0 ∧ o.fired = false := by
  constructor
  · intro st now
    simp [fireCond_nil, countUpdate]
  · intro trace
    induction trace with
    | nil =>
      intro st _ o ho
      simp at ho
    | cons p rest ih =>
      intro st hempty o ho
      obtain ⟨d, n⟩ := p
      have hd : d = [] := hempty (d, n) (List.mem_cons_self _ _)
      subst hd
      rw [runLoop_cons] at ho
      rcases List.mem_cons.1 ho with h | h
      · subst h
        simp [fireCond_nil, countUpdate]
      · exact ih _ (fun q hq => hempty q (List.mem_cons_of_mem _ hq)) o h

/-- Witness for C3 at a concrete all-empty 5-iteration trace. -/
theorem empty_trace_resets_and_never_fires_witness :
    (stepIter ⟨7, 0, 0⟩ [] 1).1.present_count = 0
    ∧ ∀ o ∈ (runLoop initState [([], 1), ([], 2), ([], 3), ([], 4), ([], 5)]).2,
        o.count_after = 0 ∧ o.fired = false :=
  ⟨empty_trace_resets_and_never_fires.1 ⟨7, 0, 0⟩ 1,
   empty_trace_resets_and_never_fires.2 [([], 1), ([], 2), ([], 3), ([], 4), ([], 5)]
     initState (by decide)⟩

/-! ### C10: a firing iteration has detections -/

/-- C10: whenever the trigger condition holds, that iteration's
detection list is non-empty (the counter reaches
`PERSISTENCE_FRAMES ≥ 1` only through the non-empty branch), so the
largest-region selection yields a region and the whole-frame fallback
branch is unreachable: the snapshot source is exactly the largest
detection. -/
theorem fired_implies_detections_nonempty (st : LoopState) (dets : List Detection)
    (now : ℚ) (h : (stepIter st dets now).2.fired = true) :
    dets ≠ [] ∧ (largestDet dets).isSome = true
      ∧ (stepIter st dets now).2.snap = largestDet dets := by
  have hne : dets ≠ [] := by
    intro hd
    subst hd
    rw [stepIter_fired, fireCond_nil] at h
    exact Bool.false_ne_true h
  have hfire : fireCond st dets now = true := by rw [stepIter_fired] at h; exact h
  refine ⟨hne, ?_, by simp [hfire]⟩
  cases dets with
  | nil => exact absurd rfl hne
  | cons d ds => simp [largestDet]

/-- Witness for C10: a concrete firing iteration. -/
theorem fired_implies_detections_nonempty_witness :
    ([⟨0, 0, 5, 5, 25⟩] : List Detection) ≠ []
    ∧ (largestDet [⟨0, 0, 5, 5, 25⟩]).isSome = true
    ∧ (stepIter ⟨2, 0, 0⟩ [⟨0, 0, 5, 5, 25⟩] 10).2.snap = largestDet [⟨0, 0, 5, 5, 25⟩] :=
  fired_implies_detections_nonempty ⟨2, 0, 0⟩ [⟨0, 0, 5, 5, 25⟩] 10
    (by norm_num [fireCond, countUpdate, PERSISTENCE_FRAMES, COOLDOWN_SECONDS])

/-! ### C9: disconnect is idempotent -/

/-- C9: `disconnect` removes the client when present; on a
duplicate-free client list, disconnecting an absent client — in
particular disconnecting the same client a second time — leaves the
list unchanged, and the operation is total (the `ValueError` of
`list.remove` is swallowed, which `List.erase`'s no-op on an absent
element models). -/
theorem disconnect_removes_and_idempotent (l : List WSClient) (c : WSClient)
    (h : l.Nodup) :
    (c ∈ l → c ∉ disconnect l c)
    ∧ (c ∉ l → disconnect l c = l)
    ∧ disconnect (disconnect l c) c = disconnect l c := by
  refine ⟨fun _ => h.not_mem_erase, fun hc => List.erase_of_not_mem hc, ?_⟩
  exact List.erase_of_not_mem h.not_mem_erase

/-- Witness for C9 on a concrete two-client list. -/
theorem disconnect_removes_and_idempotent_witness :
    ((⟨1, 1, true, true⟩ : WSClient) ∈ ([⟨1, 1, true, true⟩, ⟨2, 1, true, true⟩] : List WSClient) →
      (⟨1, 1, true, true⟩ : WSClient) ∉ disconnect [⟨1, 1, true, true⟩, ⟨2, 1, true, true⟩] ⟨1, 1, true, true⟩)
    ∧ ((⟨1, 1, true, true⟩ : WSClient) ∉ ([⟨1, 1, true, true⟩, ⟨2, 1, true, true⟩] : List WSClient) →
      disconnect [⟨1, 1, true, true⟩, ⟨2, 1, true, true⟩] ⟨1, 1, true, true⟩ = [⟨1, 1, true, true⟩, ⟨2, 1, true, true⟩])
    ∧ disconnect (disconnect [⟨1, 1, true, true⟩, ⟨2, 1, true, true⟩] ⟨1, 1, true, true⟩) ⟨1, 1, true, true⟩
      = disconnect [⟨1, 1, true, true⟩, ⟨2, 1, true, true⟩] ⟨1, 1, true, true⟩ :=
  disconnect_removes_and_idempotent [⟨1, 1, true, true⟩, ⟨2, 1, true, true⟩]
    ⟨1, 1, true, true⟩ (by decide)

/-! ### C7: the pre-morphology threshold is strict -/

/-- C7 (amended): for every frame after the first, a pixel becomes
foreground in the pre-morphology binary mask iff the absolute
difference between the new grayscale value and the smoothed background
rounded back to 8-bit is *strictly greater* than the fixed threshold
`T = 30` (OpenCV's `THRESH_BINARY` uses `src > thresh`, not `≥`). -/
theorem fgPixel_iff_strict (gray : ℕ) (bg : ℚ) :
    fgPixel gray bg = true ↔
      DIFF_THRESHOLD < absdiff gray (convertScaleAbs (accumulateWeighted bg gray)) := by
  simp [fgPixel, thresholdBinary]

/-- Counterexample to C7 as stated: at grayscale value 130 over
background state 3290/33 the smoothed background rounds to 100, the
absolute difference is exactly the threshold 30 — so the claim's
"foreground iff difference ≥ T" demands foreground — yet the code's
strict comparison classifies the pixel as background. -/
theorem fgPixel_claim_counterexample :
    absdiff 130 (convertScaleAbs (accumulateWeighted (3290/33) 130)) = DIFF_THRESHOLD
    ∧ fgPixel 130 (3290/33) = false := by
  have h1 : accumulateWeighted (3290/33) 130 = 100 := by
    norm_num [accumulateWeighted, BG_LEARNING_RATE]
  have h2 : convertScaleAbs (100 : ℚ) = 100 := by
    unfold convertScaleAbs
    norm_num [round_eq]
    rfl
  have h3 : absdiff 130 (convertScaleAbs (accumulateWeighted (3290/33) 130))
      = DIFF_THRESHOLD := by
    rw [h1, h2]; decide
  refine ⟨h3, ?_⟩
  unfold fgPixel
  rw [h3]
  decide

/-! ### C6: minimum-area filter -/

/-- C6 (amended): every region returned by the contour filter has
bounding-box area at least `max 10 ⌊MIN_AREA_RATIO · frame_area⌋`
(Python's `int()` truncates the product before the `max`), hence in
particular positive area — no zero-area region reaches the persistence
tracker. -/
theorem detect_area_lower_bound (boxes : List BRect) (frameArea : ℕ) (d : Detection)
    (hd : d ∈ detect boxes (min_area_px frameArea)) :
    max 10 (Int.toNat ⌊MIN_AREA_FRAC * (frameArea : ℚ)⌋) ≤ d.area ∧ 0 < d.area := by
  simp only [detect, List.mem_filterMap] at hd
  obtain ⟨b, _, heq⟩ := hd
  split_ifs at heq with h
  obtain rfl : (⟨b.x, b.y, b.x + b.w, b.y + b.h, b.w * b.h⟩ : Detection) = d :=
    Option.some.inj heq
  refine ⟨h, ?_⟩
  have h10 : 10 ≤ min_area_px frameArea := le_max_left _ _
  exact Nat.lt_of_lt_of_le (by norm_num) (le_trans h10 h)

/-- Witness for C6 at the spec's own concrete scenario: a 50×50 box on
a 640×480 frame. -/
theorem detect_area_lower_bound_witness :
    max 10 (Int.toNat ⌊MIN_AREA_FRAC * ((640*480 : ℕ) : ℚ)⌋) ≤ (2500 : ℕ)
    ∧ 0 < (2500 : ℕ) :=
  detect_area_lower_bound [⟨0, 0, 50, 50⟩] (640*480) ⟨0, 0, 50, 50, 2500⟩ (by
    rw [show min_area_px (640*480) = 1228 from by
      unfold min_area_px MIN_AREA_FRAC
      norm_num [Int.floor_eq_iff]
      rfl]
    decide)

/-- Counterexample to C6 as stated: on a 640×480 frame the un-floored
bound of the claim is `max(10, 0.004·307200) = 1228.8`, but the code
computes `max(10, int(1228.8)) = 1228` and therefore keeps a 4×307 box
of area 1228, which violates the claimed bound. -/
theorem detect_claim_counterexample :
    (⟨0, 0, 4, 307, 1228⟩ : Detection) ∈ detect [⟨0, 0, 4, 307⟩] (min_area_px (640*480))
    ∧ ((1228 : ℚ) < max 10 (MIN_AREA_FRAC * ((640*480 : ℕ) : ℚ))) := by
  constructor
  · rw [show min_area_px (640*480) = 1228 from by
      unfold min_area_px MIN_AREA_FRAC
      norm_num [Int.floor_eq_iff]
      rfl]
    decide
  · rw [lt_max_iff]
    right
    norm_num [MIN_AREA_FRAC]

/-! ### C1: the trigger fires exactly per the documented condition -/

/-- With a non-empty detection list the counter increments (line 131). -/
lemma countUpdate_of_ne {dets : List Detection} (c : ℕ) (h : dets ≠ []) :
    countUpdate dets c = c + 1 := by
  cases dets with
  | nil => exact absurd rfl h
  | cons d ds => rfl

/-- The trigger test fails while the updated counter is below
`PERSISTENCE_FRAMES`. -/
lemma fireCond_of_count_lt {st : LoopState} {dets : List Detection} {now : ℚ}
    (h : countUpdate dets st.present_count < PERSISTENCE_FRAMES) :
    fireCond st dets now = false := by
  simp [fireCond, Nat.not_le.2 h]

/-- A non-firing iteration leaves the counter at its updated value and
`last_trigger_at` untouched. -/
lemma stepIter_state_of_not_fire {st : LoopState} {dets : List Detection} {now : ℚ}
    (h : fireCond st dets now = false) :
    (stepIter st dets now).1.present_count = countUpdate dets st.present_count
    ∧ (stepIter st dets now).1.last_trigger_at = st.last_trigger_at := by
  constructor <;> simp [h]

/-- C1: a trigger fires iff, after the per-iteration counter update,
`present_count ≥ PERSISTENCE_FRAMES` and
`now − last_trigger_at > COOLDOWN_SECONDS`; when it fires the counter
is reset to 0 and `last_trigger_at` is set to `now`; and for a run of
non-empty detection lists over exactly `PERSISTENCE_FRAMES = 3`
consecutive iterations, starting from a zero counter with the cooldown
elapsed, the trigger fires on exactly the third iteration and not
before. -/
theorem trigger_iff_and_fires_on_third :
    (∀ (st : LoopState) (dets : List Detection) (now : ℚ),
        (stepIter st dets now).2.fired = true ↔
          PERSISTENCE_FRAMES ≤ countUpdate dets st.present_count
            ∧ COOLDOWN_SECONDS < now - st.last_trigger_at)
    ∧ (∀ (st : LoopState) (dets : List Detection) (now : ℚ),
        (stepIter st dets now).2.fired = true →
          (stepIter st dets now).1.present_count = 0
          ∧ (stepIter st dets now).1.last_trigger_at = now)
    ∧ ∀ (st : LoopState) (d1 d2 d3 : List Detection) (n1 n2 n3 : ℚ),
        st.present_count = 0 → d1 ≠ [] → d2 ≠ [] → d3 ≠ [] →
        COOLDOWN_SECONDS < n3 - st.last_trigger_at →
        ((runLoop st [(d1, n1), (d2, n2), (d3, n3)]).2.map (·.fired))
          = [false, false, true] := by
  refine ⟨?_, ?_, ?_⟩
  · intro st dets now
    simp [fireCond]
  · intro st dets now hf
    have hfire : fireCond st dets now = true := hf
    simp [hfire]
  · intro st d1 d2 d3 n1 n2 n3 hc h1 h2 h3 hcool
    have hf1 : fireCond st d1 n1 = false :=
      fireCond_of_count_lt (by rw [countUpdate_of_ne _ h1, hc]; norm_num [PERSISTENCE_FRAMES])
    have hst1c : (stepIter st d1 n1).1.present_count = 1 := by
      rw [(stepIter_state_of_not_fire hf1).1, countUpdate_of_ne _ h1, hc]
    have hst1l : (stepIter st d1 n1).1.last_trigger_at = st.last_trigger_at :=
      (stepIter_state_of_not_fire hf1).2
    have hf2 : fireCond (stepIter st d1 n1).1 d2 n2 = false :=
      fireCond_of_count_lt (by rw [countUpdate_of_ne _ h2, hst1c]; norm_num [PERSISTENCE_FRAMES])
    have hst2c : (stepIter (stepIter st d1 n1).1 d2 n2).1.present_count = 2 := by
      rw [(stepIter_state_of_not_fire hf2).1, countUpdate_of_ne _ h2, hst1c]
    have hst2l : (stepIter (stepIter st d1 n1).1 d2 n2).1.last_trigger_at
        = st.last_trigger_at := by
      rw [(stepIter_state_of_not_fire hf2).2, hst1l]
    have hf3 : fireCond (stepIter (stepIter st d1 n1).1 d2 n2).1 d3 n3 = true := by
      unfold fireCond
      rw [hst2c, hst2l, countUpdate_of_ne _ h3]
      simp [PERSISTENCE_FRAMES, hcool]
    rw [runLoop_cons, runLoop_cons, runLoop_cons]
    simp [hf1, hf2, hf3]

/-- Witness for C1 at concrete inputs. -/
theorem trigger_iff_and_fires_on_third_witness :
    ((stepIter ⟨2, 0, 0⟩ [⟨0, 0, 5, 5, 25⟩] 10).2.fired = true ↔
        PERSISTENCE_FRAMES ≤ countUpdate [⟨0, 0, 5, 5, 25⟩] (2 : ℕ)
          ∧ COOLDOWN_SECONDS < 10 - (0 : ℚ))
    ∧ ((runLoop ⟨0, 0, 0⟩
          [([⟨0, 0, 5, 5, 25⟩], 1), ([⟨0, 0, 5, 5, 25⟩], 2), ([⟨0, 0, 5, 5, 25⟩], 10)]).2.map
            (·.fired)) = [false, false, true] :=
  ⟨trigger_iff_and_fires_on_third.1 ⟨2, 0, 0⟩ [⟨0, 0, 5, 5, 25⟩] 10,
   trigger_iff_and_fires_on_third.2.2 ⟨0, 0, 0⟩ [⟨0, 0, 5, 5, 25⟩] [⟨0, 0, 5, 5, 25⟩]
     [⟨0, 0, 5, 5, 25⟩] 1 2 10 rfl (by decide) (by decide) (by decide)
     (by norm_num [COOLDOWN_SECONDS])⟩

/-! ### C2: cooldown blocks any second trigger -/

/-- While every iteration's clock stays within
`last_trigger_at + COOLDOWN_SECONDS`, no trigger fires (the trigger
test requires `now − last_trigger_at > COOLDOWN_SECONDS`, and
`last_trigger_at` only changes when a trigger fires). -/
lemma no_fire_within_cooldown (trace : List (List Detection × ℚ)) :
    ∀ st : LoopState,
      (∀ p ∈ trace, p.2 ≤ st.last_trigger_at + COOLDOWN_SECONDS) →
      ∀ o ∈ (runLoop st trace).2, o.fired = false := by
  induction trace with
  | nil =>
    intro st _ o ho
    simp at ho
  | cons p rest ih =>
    intro st hb o ho
    obtain ⟨d, n⟩ := p
    have hn : n ≤ st.last_trigger_at + COOLDOWN_SECONDS :=
      hb (d, n) (List.mem_cons_self _ _)
    have hf : fireCond st d n = false := by
      have hnot : ¬ (COOLDOWN_SECONDS < n - st.last_trigger_at) := by
        rw [not_lt]
        linarith
      simp [fireCond, hnot]
    rw [runLoop_cons] at ho
    rcases List.mem_cons.1 ho with h | h
    · subst h
      simp [hf]
    · refine ih (stepIter st d n).1 ?_ o h
      intro q hq
      have hq2 := hb q (List.mem_cons_of_mem _ hq)
      rw [stepIter_last_trigger, hf]
      simpa using hq2

/-- C2: once a trigger fires at time `t` (setting
`last_trigger_at = t`), no second trigger fires at any later iteration
whose clock reading is at most `t + COOLDOWN_SECONDS`, whatever the
region lists do in between; and the initial `last_trigger_at = 0.0`
never blocks the first trigger by cooldown, provided the wall clock
exceeds `COOLDOWN_SECONDS`. -/
theorem cooldown_blocks_second_trigger :
    (∀ (st : LoopState) (dets : List Detection) (t : ℚ)
        (trace : List (List Detection × ℚ)),
        (stepIter st dets t).2.fired = true →
        (∀ p ∈ trace, p.2 ≤ t + COOLDOWN_SECONDS) →
        ∀ o ∈ (runLoop (stepIter st dets t).1 trace).2, o.fired = false)
    ∧ ∀ now : ℚ, COOLDOWN_SECONDS < now →
        COOLDOWN_SECONDS < now - initState.last_trigger_at := by
  constructor
  · intro st dets t trace hf hb o ho
    have hfire : fireCond st dets t = true := hf
    have hl : (stepIter st dets t).1.last_trigger_at = t := by simp [hfire]
    refine no_fire_within_cooldown trace _ ?_ o ho
    rw [hl]
    exact hb
  · intro now h
    simpa [initState] using h

/-- Witness for C2: a trigger at `t = 10`, then persistently
re-satisfied presence at times 12 and 16 ≤ 16, with no second fire. -/
theorem cooldown_blocks_second_trigger_witness :
    (∀ o ∈ (runLoop (stepIter ⟨2, 0, 0⟩ [⟨0, 0, 5, 5, 25⟩] 10).1
        [([⟨0, 0, 5, 5, 25⟩], 12), ([⟨0, 0, 5, 5, 25⟩], 16)]).2, o.fired = false)
    ∧ COOLDOWN_SECONDS < 7 - initState.last_trigger_at :=
  ⟨cooldown_blocks_second_trigger.1 ⟨2, 0, 0⟩ [⟨0, 0, 5, 5, 25⟩] 10
      [([⟨0, 0, 5, 5, 25⟩], 12), ([⟨0, 0, 5, 5, 25⟩], 16)]
      (by norm_num [fireCond, countUpdate, PERSISTENCE_FRAMES, COOLDOWN_SECONDS])
      (by
        intro p hp
        rcases List.mem_cons.1 hp with h | h
        · subst h; norm_num [COOLDOWN_SECONDS]
        · rcases List.mem_cons.1 h with h2 | h2
          · subst h2; norm_num [COOLDOWN_SECONDS]
          · simp at h2),
   cooldown_blocks_second_trigger.2 7 (by norm_num [COOLDOWN_SECONDS])⟩

/-! ### C5: the FPS limiter -/

lemma FPS_INTERVAL_eq : FPS_INTERVAL = 1/15 := by
  unfold FPS_INTERVAL FPS_LIMIT
  norm_num

lemma FPS_INTERVAL_pos : 0 < FPS_INTERVAL := by
  rw [FPS_INTERVAL_eq]
  norm_num

lemma sentTimes_cons (st : LoopState) (d : List Detection) (n : ℚ)
    (rest : List (List Detection × ℚ)) :
    sentTimes st ((d, n) :: rest)
      = if sendCond st n then n :: sentTimes (stepIter st d n).1 rest
        else sentTimes (stepIter st d n).1 rest := by
  unfold sentTimes
  rw [runLoop_cons]
  by_cases h : sendCond st n = true
  · simp [h]
  · simp [h]

/-- Every broadcast in a run happens at least `FPS_INTERVAL` after the
`last_send` the run started with. -/
lemma sentTimes_lower (trace : List (List Detection × ℚ)) :
    ∀ st : LoopState, ∀ s ∈ sentTimes st trace, st.last_send + FPS_INTERVAL ≤ s := by
  induction trace with
  | nil =>
    intro st s hs
    simp [sentTimes] at hs
  | cons p rest ih =>
    intro st s hs
    obtain ⟨d, n⟩ := p
    rw [sentTimes_cons] at hs
    by_cases h : sendCond st n = true
    · rw [if_pos h] at hs
      have hn : FPS_INTERVAL ≤ n - st.last_send := by simpa [sendCond] using h
      rcases List.mem_cons.1 hs with rfl | hmem
      · linarith
      · have hrec := ih (stepIter st d n).1 s hmem
        rw [stepIter_last_send, if_pos h] at hrec
        have := FPS_INTERVAL_pos
        linarith
    · rw [if_neg h] at hs
      have hrec := ih (stepIter st d n).1 s hs
      rwa [stepIter_last_send, if_neg h] at hrec

/-- Successive broadcast times in a run are at least `FPS_INTERVAL`
apart. -/
lemma sentTimes_pairwise (trace : List (List Detection × ℚ)) :
    ∀ st : LoopState, (sentTimes st trace).Pairwise fun a b => a + FPS_INTERVAL ≤ b := by
  induction trace with
  | nil =>
    intro st
    simp [sentTimes]
  | cons p rest ih =>
    intro st
    obtain ⟨d, n⟩ := p
    rw [sentTimes_cons]
    by_cases h : sendCond st n = true
    · rw [if_pos h]
      refine List.Pairwise.cons ?_ (ih _)
      intro s hs
      have hrec := sentTimes_lower rest (stepIter st d n).1 s hs
      rwa [stepIter_last_send, if_pos h] at hrec
    · rw [if_neg h]
      exact ih _

/-- A list whose successive elements are at least `FPS_INTERVAL` apart
has at most `n` elements inside any half-open window of length
`n · FPS_INTERVAL`. -/
lemma countP_window_le :
    ∀ l : List ℚ, (l.Pairwise fun a b => a + FPS_INTERVAL ≤ b) →
      ∀ (n : ℕ) (t : ℚ),
        l.countP (fun s => decide (t ≤ s ∧ s < t + n * FPS_INTERVAL)) ≤ n := by
  intro l
  induction l with
  | nil =>
    intro _ n t
    simp
  | cons h tl ih =>
    intro hp n t
    rw [List.pairwise_cons] at hp
    obtain ⟨hrel, htl⟩ := hp
    rw [List.countP_cons]
    by_cases hw : t ≤ h ∧ h < t + n * FPS_INTERVAL
    · obtain ⟨hw1, hw2⟩ := hw
      rcases n with _ | m
      · exfalso
        simp only [Nat.cast_zero, zero_mul, add_zero] at hw2
        linarith
      · have hmono : tl.countP (fun s => decide (t ≤ s ∧ s < t + (m + 1 : ℕ) * FPS_INTERVAL))
            ≤ tl.countP (fun s => decide (t + FPS_INTERVAL ≤ s
                ∧ s < (t + FPS_INTERVAL) + m * FPS_INTERVAL)) := by
          apply List.countP_mono_left
          intro s hs hsp
          rw [decide_eq_true_eq] at hsp ⊢
          obtain ⟨hs1, hs2⟩ := hsp
          have hhs := hrel s hs
          push_cast at hs2 ⊢
          constructor
          · linarith
          · nlinarith [hs2]
        have hwin : (decide (t ≤ h ∧ h < t + (m + 1 : ℕ) * FPS_INTERVAL)) = true :=
          decide_eq_true ⟨hw1, hw2⟩
        rw [hwin, if_pos rfl]
        have := le_trans hmono (ih htl m (t + FPS_INTERVAL))
        omega
    · rw [decide_eq_false hw]
      simpa using ih htl n t

/-- C5: with `FPS_LIMIT = 15`, any half-open 1-second window of a run
contains at most 15 broadcastBinary calls, no matter how many frames
the run processes; and an iteration whose elapsed time since the last
broadcast is below `1/FPS_LIMIT` sends nothing. -/
theorem at_most_fifteen_sends_per_second :
    (∀ (st : LoopState) (trace : List (List Detection × ℚ)) (t : ℚ),
        (sentTimes st trace).countP (fun s => decide (t ≤ s ∧ s < t + 1)) ≤ FPS_LIMIT)
    ∧ ∀ (st : LoopState) (dets : List Detection) (now : ℚ),
        now - st.last_send < FPS_INTERVAL → (stepIter st dets now).2.sent = false := by
  constructor
  · intro st trace t
    have h := countP_window_le (sentTimes st trace) (sentTimes_pairwise trace st) FPS_LIMIT t
    have hone : ((FPS_LIMIT : ℕ) : ℚ) * FPS_INTERVAL = 1 := by
      rw [FPS_INTERVAL_eq]
      norm_num [FPS_LIMIT]
    rwa [hone] at h
  · intro st dets now h
    simp [sendCond, not_le.2 h]

/-- Witness for C5: a concrete two-iteration trace 1/60 s apart, in
which the second iteration is throttled. -/
theorem at_most_fifteen_sends_per_second_witness :
    ((sentTimes initState [([], 1), ([], 1 + 1/60)]).countP
        (fun s => decide (0 ≤ s ∧ s < 0 + 1)) ≤ FPS_LIMIT)
    ∧ (stepIter ⟨0, 0, 1⟩ [] (1 + 1/60)).2.sent = false :=
  ⟨at_most_fifteen_sends_per_second.1 initState [([], 1), ([], 1 + 1/60)] 0,
   at_most_fifteen_sends_per_second.2 ⟨0, 0, 1⟩ [] (1 + 1/60)
     (by rw [FPS_INTERVAL_eq]; norm_num)⟩

/-! ### C4: broadcast failure isolation -/

/-- On a duplicate-free, all-connected client list in which exactly
client `k`'s send fails, the dead list collected by a broadcast is
`[k]` and the delivered list is everyone but `k`, in order. -/
lemma filter_fail_eq_single (ok : WSClient → Bool) {clients : List WSClient}
    {k : WSClient} (hnd : clients.Nodup) (hk : k ∈ clients)
    (hconn : ∀ c ∈ clients, c.stateVal = 1)
    (hfail : ∀ c ∈ clients, (ok c = false ↔ c = k)) :
    clients.filter (fun c => c.stateVal == 1 && !(ok c)) = [k]
    ∧ clients.filter (fun c => c.stateVal == 1 && ok c) = clients.erase k := by
  constructor
  · have hcg : clients.filter (fun c => c.stateVal == 1 && !(ok c))
        = clients.filter (fun c => c == k) := by
      apply List.filter_congr
      intro c hc
      rw [hconn c hc]
      have h2 := hfail c hc
      cases hok : ok c with
      | true =>
        have hne : c ≠ k := fun he => by simp [h2.2 he] at hok
        simp [hne]
      | false =>
        simp [h2.1 hok]
    rw [hcg, List.filter_beq, List.count_eq_one_of_mem hnd hk, List.replicate_one]
  · have hcg : clients.filter (fun c => c.stateVal == 1 && ok c)
        = clients.filter (fun c => c != k) := by
      apply List.filter_congr
      intro c hc
      rw [hconn c hc]
      have h2 := hfail c hc
      cases hok : ok c with
      | true =>
        have hne : c ≠ k := fun he => by simp [h2.2 he] at hok
        simp [hne]
      | false =>
        simp [h2.1 hok]
    rw [hcg, hnd.erase_eq_filter k]

/-- C4: for a duplicate-free set of registered clients, all in
CONNECTED state, in which exactly client `k`'s send fails, each
broadcast (binary and JSON) attempts delivery to every registered
client, delivers to everyone but `k` (in registration order), removes
exactly `k` from the client list, and — being a total function — never
surfaces the failure to the caller. -/
theorem broadcast_isolates_failed_client (clients : List WSClient) (k : WSClient)
    (hnd : clients.Nodup) (hk : k ∈ clients)
    (hconn : ∀ c ∈ clients, c.stateVal = 1) :
    ((∀ c ∈ clients, (c.sendBytesOk = false ↔ c = k)) →
        clients.filter (fun c => c.stateVal == 1) = clients
        ∧ deliveredBytes clients = clients.erase k
        ∧ (broadcast_bytes clients).1 = clients.erase k)
    ∧ ((∀ c ∈ clients, (c.sendTextOk = false ↔ c = k)) →
        clients.filter (fun c => c.stateVal == 1) = clients
        ∧ deliveredJson clients = clients.erase k
        ∧ (broadcast_json clients).1 = clients.erase k) := by
  have hall : clients.filter (fun c => c.stateVal == 1) = clients :=
    List.filter_eq_self.mpr fun c hc => by simp [hconn c hc]
  constructor
  · intro hfail
    obtain ⟨hdead, hdel⟩ :=
      filter_fail_eq_single (fun c => c.sendBytesOk) hnd hk hconn hfail
    refine ⟨hall, hdel, ?_⟩
    have hdead' : deadBytes clients = [k] := hdead
    show (deadBytes clients).foldl disconnect clients = clients.erase k
    rw [hdead']
    rfl
  · intro hfail
    obtain ⟨hdead, hdel⟩ :=
      filter_fail_eq_single (fun c => c.sendTextOk) hnd hk hconn hfail
    refine ⟨hall, hdel, ?_⟩
    have hdead' : deadJson clients = [k] := hdead
    show (deadJson clients).foldl disconnect clients = clients.erase k
    rw [hdead']
    rfl

/-- Witness for C4: three connected clients of which the middle one
fails both kinds of send. -/
theorem broadcast_isolates_failed_client_witness :
    ((([⟨0, 1, true, true⟩, ⟨1, 1, false, false⟩, ⟨2, 1, true, true⟩] : List WSClient).filter
          (fun c => c.stateVal == 1))
        = [⟨0, 1, true, true⟩, ⟨1, 1, false, false⟩, ⟨2, 1, true, true⟩]
      ∧ deliveredBytes [⟨0, 1, true, true⟩, ⟨1, 1, false, false⟩, ⟨2, 1, true, true⟩]
        = ([⟨0, 1, true, true⟩, ⟨1, 1, false, false⟩, ⟨2, 1, true, true⟩] : List WSClient).erase
            ⟨1, 1, false, false⟩
      ∧ (broadcast_bytes [⟨0, 1, true, true⟩, ⟨1, 1, false, false⟩, ⟨2, 1, true, true⟩]).1
        = ([⟨0, 1, true, true⟩, ⟨1, 1, false, false⟩, ⟨2, 1, true, true⟩] : List WSClient).erase
            ⟨1, 1, false, false⟩)
    ∧ ((([⟨0, 1, true, true⟩, ⟨1, 1, false, false⟩, ⟨2, 1, true, true⟩] : List WSClient).filter
          (fun c => c.stateVal == 1))
        = [⟨0, 1, true, true⟩, ⟨1, 1, false, false⟩, ⟨2, 1, true, true⟩]
      ∧ deliveredJson [⟨0, 1, true, true⟩, ⟨1, 1, false, false⟩, ⟨2, 1, true, true⟩]
        = ([⟨0, 1, true, true⟩, ⟨1, 1, false, false⟩, ⟨2, 1, true, true⟩] : List WSClient).erase
            ⟨1, 1, false, false⟩
      ∧ (broadcast_json [⟨0, 1, true, true⟩, ⟨1, 1, false, false⟩, ⟨2, 1, true, true⟩]).1
        = ([⟨0, 1, true, true⟩, ⟨1, 1, false, false⟩, ⟨2, 1, true, true⟩] : List WSClient).erase
            ⟨1, 1, false, false⟩) :=
  ⟨(broadcast_isolates_failed_client
      [⟨0, 1, true, true⟩, ⟨1, 1, false, false⟩, ⟨2, 1, true, true⟩] ⟨1, 1, false, false⟩
      (by decide) (by decide) (by decide)).1 (by decide),
   (broadcast_isolates_failed_client
      [⟨0, 1, true, true⟩, ⟨1, 1, false, false⟩, ⟨2, 1, true, true⟩] ⟨1, 1, false, false⟩
      (by decide) (by decide) (by decide)).2 (by decide)⟩

/-! ### C8: annotation draws on a copy -/

lemma drawDet_pix_border (f : Frame) (d : Detection) (i j : ℕ)
    (h : onBorder d i j = true) : (drawDet f d).pix i j = boxColor := by
  unfold drawDet cv2putText cv2rectangle
  simp [h]

lemma drawDet_pix_preserve (f : Frame) (d : Detection) (i j : ℕ)
    (h : f.pix i j = boxColor) : (drawDet f d).pix i j = boxColor := by
  unfold drawDet cv2putText cv2rectangle
  by_cases hb : onBorder d i j = true
  · simp [hb]
  · simp [hb, h]

/-- Once a pixel carries the box colour, later draws keep it. -/
lemma foldl_drawDet_preserve (l : List Detection) :
    ∀ (f : Frame) (i j : ℕ), f.pix i j = boxColor →
      (l.foldl drawDet f).pix i j = boxColor := by
  induction l with
  | nil =>
    intro f i j h
    exact h
  | cons a l ih =>
    intro f i j h
    rw [List.foldl_cons]
    exact ih _ i j (drawDet_pix_preserve f a i j h)

/-- Every drawn detection's border pixels end with the box colour. -/
lemma foldl_drawDet_border (l : List Detection) :
    ∀ (f : Frame) (d : Detection), d ∈ l → ∀ i j, onBorder d i j = true →
      (l.foldl drawDet f).pix i j = boxColor := by
  induction l with
  | nil =>
    intro f d hd
    simp at hd
  | cons a l ih =>
    intro f d hd i j hb
    rw [List.foldl_cons]
    rcases List.mem_cons.1 hd with rfl | hmem
    · exact foldl_drawDet_preserve l _ i j (drawDet_pix_border f d i j hb)
    · exact ih _ d hmem i j hb

/-- Text overlays are only ever added, never removed. -/
lemma foldl_drawDet_texts_mono (l : List Detection) :
    ∀ (f : Frame) (x : String × ℕ × ℤ), x ∈ f.texts → x ∈ (l.foldl drawDet f).texts := by
  induction l with
  | nil =>
    intro f x h
    exact h
  | cons a l ih =>
    intro f x h
    rw [List.foldl_cons]
    exact ih _ x (List.mem_cons_of_mem _ h)

/-- Every drawn detection's label ends up among the overlays. -/
lemma foldl_drawDet_label (l : List Detection) :
    ∀ (f : Frame) (d : Detection), d ∈ l → labelOf d ∈ (l.foldl drawDet f).texts := by
  induction l with
  | nil =>
    intro f d hd
    simp at hd
  | cons a l ih =>
    intro f d hd
    rw [List.foldl_cons]
    rcases List.mem_cons.1 hd with rfl | hmem
    · exact foldl_drawDet_texts_mono l _ _ (List.mem_cons_self _ _)
    · exact ih _ d hmem

/-- C8: annotation produces a new frame on which every region's
bounding box is drawn (border pixels carry the box colour, later boxes
notwithstanding) and every region's area label is stamped; the input
frame is never mutated — the drawing happens on `frame.copy()` — and in
particular the snapshot crop of a trigger reads its pixels from the
original, unannotated frame. -/
theorem annotate_draws_on_copy (frame : Frame) (dets : List Detection) :
    (∀ d ∈ dets, ∀ i j : ℕ, onBorder d i j = true →
        (annotate frame dets).pix i j = boxColor)
    ∧ (∀ d ∈ dets, labelOf d ∈ (annotate frame dets).texts)
    ∧ (∀ (d : Detection) (i j : ℕ),
        (snapshotCrop frame d).pix i j = frame.pix (d.x1 - 10 + i) (d.y1 - 10 + j))
    ∧ (∀ d ∈ dets, ∀ i j : ℕ, onBorder d i j = true → frame.pix i j ≠ boxColor →
        (annotate frame dets).pix i j ≠ frame.pix i j) := by
  refine ⟨?_, ?_, fun d i j => rfl, ?_⟩
  · intro d hd i j hb
    exact foldl_drawDet_border dets (frameCopy frame) d hd i j hb
  · intro d hd
    exact foldl_drawDet_label dets (frameCopy frame) d hd
  · intro d hd i j hb hne
    have hcol : (annotate frame dets).pix i j = boxColor :=
      foldl_drawDet_border dets (frameCopy frame) d hd i j hb
    rw [hcol]
    exact fun he => hne he.symm

/-- Witness for C8: one detection on a uniformly black frame. -/
theorem annotate_draws_on_copy_witness :
    (annotate ⟨fun _ _ => (0, 0, 0), []⟩ [⟨0, 0, 5, 5, 25⟩]).pix 0 0 = boxColor
    ∧ labelOf ⟨0, 0, 5, 5, 25⟩ ∈ (annotate ⟨fun _ _ => (0, 0, 0), []⟩ [⟨0, 0, 5, 5, 25⟩]).texts
    ∧ (snapshotCrop ⟨fun _ _ => (0, 0, 0), []⟩ ⟨0, 0, 5, 5, 25⟩).pix 0 0
        = (⟨fun _ _ => (0, 0, 0), []⟩ : Frame).pix (0 - 10 + 0) (0 - 10 + 0)
    ∧ (annotate ⟨fun _ _ => (0, 0, 0), []⟩ [⟨0, 0, 5, 5, 25⟩]).pix 0 0
        ≠ (⟨fun _ _ => (0, 0, 0), []⟩ : Frame).pix 0 0 :=
  ⟨(annotate_draws_on_copy ⟨fun _ _ => (0, 0, 0), []⟩ [⟨0, 0, 5, 5, 25⟩]).1
      ⟨0, 0, 5, 5, 25⟩ (List.mem_singleton.mpr rfl) 0 0 (by decide),
   (annotate_draws_on_copy ⟨fun _ _ => (0, 0, 0), []⟩ [⟨0, 0, 5, 5, 25⟩]).2.1
      ⟨0, 0, 5, 5, 25⟩ (List.mem_singleton.mpr rfl),
   (annotate_draws_on_copy ⟨fun _ _ => (0, 0, 0), []⟩ [⟨0, 0, 5, 5, 25⟩]).2.2.1
      ⟨0, 0, 5, 5, 25⟩ 0 0,
   (annotate_draws_on_copy ⟨fun _ _ => (0, 0, 0), []⟩ [⟨0, 0, 5, 5, 25⟩]).2.2.2
      ⟨0, 0, 5, 5, 25⟩ (List.mem_singleton.mpr rfl) 0 0 (by decide) (by decide)⟩

end LitterBot
